import Mathlib

/-
  Verification of the PITR coordinator of the pbm-agent
  (cmd/pbm-agent/pitr.go).

  The Go code is shallowly embedded: every external call made during one
  control-loop tick is represented by its result, supplied in an
  environment record, and the observable actions of a tick (mutations of
  the agent's slicer slot, metadata writes, lock release, goroutine
  spawns, sleeps) are collected in an event trace.  Stateful agent fields
  (prevOO, pitrjob) are threaded explicitly.
-/

namespace PbmPitr

/-- Result of reading an optional document: found, not found, or a driver
error.  Mirrors the Go pattern of checking errors.Is(err, ErrNotFound) /
mongo.ErrNoDocuments. -/
inductive FetchRes (α : Type) where
  | ok (a : α)
  | notFound
  | fail (e : String)
deriving DecidableEq

/-- Command type of a lock header (ctrl.Command).  Only CmdBackup and
CmdPITR are inspected by this file; the rest are collapsed into a few
representative constructors. -/
inductive Cmd where
  | backup
  | pitrCmd
  | restore
  | resync
  | other (s : String)
deriving DecidableEq

/-- lock.LockHeader: the identifying fields of an advisory OpLock. -/
structure LockHeader where
  typ : Cmd
  replset : String
  node : String
  opid : String
deriving DecidableEq

/-- defs.BackupType. -/
inductive BackupType where
  | logical
  | physical
  | incremental
  | external
deriving DecidableEq

/-- The single field of backup metadata read by canSlicingNow. -/
structure BackupMeta where
  typ : BackupType
deriving DecidableEq

/-- topo.NodeInfoExt fields used by the tick. -/
structure NodeInfo where
  setName : String
  me : String
  isClusterLeader : Bool
deriving DecidableEq

/-- The configuration fields read by the tick.  oplogSlicerInterval models
the value returned by cfg.OplogSlicerInterval(). -/
structure Config where
  pitrEnabled : Bool := false
  oplogOnly : Bool := false
  oplogSlicerInterval : Nat := 0
deriving DecidableEq

/-- The Go zero value config.Config{} used when the config document is
missing. -/
def emptyConfig : Config := {}

/-- ctrl.OPID; ctrl.NilOPID is the nil sentinel. -/
inductive OPID where
  | nil
  | op (s : String)
deriving DecidableEq

/-- The running slicer handle (currentPitr).  Only the slicer span is
observable through GetSpan/SetSpan. -/
structure Handle where
  span : Nat
deriving DecidableEq

/-- Process-local agent state: the remembered oplog-only flag (prevOO) and
the slicer slot (pitrjob). -/
structure AgentState where
  prevOO : Option Bool
  pitrjob : Option Handle
deriving DecidableEq

/-- Tunable constants of pitr.go, in seconds. -/
def pitrCheckPeriod : Nat := 15

def pitrRenominationFrame : Nat := 5

def pitrOpLockPollingCycle : Nat := 15

def pitrOpLockPollingTimeOut : Nat := 120

def pitrNominationPollingCycle : Nat := 2

def pitrNominationPollingTimeOut : Nat := 120

/-- Observable actions of the coordinator. -/
inductive Event where
  | cancelHandle
  | setSpan (n : Nat)
  | wake (opid : OPID)
  | initMeta
  | spawnNominate (rs : String)
  | setNomineeACK
  | newSlicer (span : Nat)
  | release
  | spawnStream
  | installHandle
  | spawnWatcher
  | streamRun
  | logStreamErr
  | logReleaseErr
  | sleepPenalty (secs : Nat)
  | setNomination
  | fetchNominees (i : Nat)
  | setNominees (tier : List String)
  | sleepFrame (secs : Nat)
deriving DecidableEq

/-! ### Slicer slot primitives (setPitr / removePitr / sliceNow) -/

/-- Agent.setPitr: cancel the previous handle, if any, then store p. -/
def setPitr (st : AgentState) (p : Option Handle) : AgentState × List Event :=
  match st.pitrjob with
  | none => ({ st with pitrjob := p }, [])
  | some _ => ({ st with pitrjob := p }, [Event.cancelHandle])

/-- Agent.removePitr = setPitr nil. -/
def removePitr (st : AgentState) : AgentState × List Event :=
  setPitr st none

/-- Agent.sliceNow: forward opid into the wake channel only when a handle
exists. -/
def sliceNow (st : AgentState) (opid : OPID) : List Event :=
  match st.pitrjob with
  | none => []
  | some _ => [Event.wake opid]

/-- Agent.stopPitrOnOplogOnlyChange: remember the first observed value;
on a change, remember the new value and remove the slicer handle. -/
def stopPitrOnOplogOnlyChange (st : AgentState) (currOO : Bool) :
    AgentState × List Event :=
  match st.prevOO with
  | none => ({ st with prevOO := some currOO }, [])
  | some prev =>
    if prev = currOO then (st, [])
    else removePitr { st with prevOO := some currOO }

/-! ### Concurrency gate (canSlicingNow) -/

/-- The error value of canSlicingNow: either a typed
lock.ConcurrentOpError carrying the offending header, or a wrapped
storage error. -/
inductive SliceErr where
  | concurrentOp (h : LockHeader)
  | getLocks (e : String)
  | getBackup (e : String)
deriving DecidableEq

/-- The loop of canSlicingNow over the fetched live locks.  A non-backup
lock, or a backup lock whose backup metadata is a logical backup, stops
the scan with ConcurrentOpError of that lock's header. -/
def canSlicingLoop (getBackup : String → Except String BackupMeta) :
    List LockHeader → Except SliceErr Unit
  | [] => Except.ok ()
  | l :: rest =>
    if l.typ ≠ Cmd.backup then
      Except.error (SliceErr.concurrentOp l)
    else
      match getBackup l.opid with
      | Except.error e => Except.error (SliceErr.getBackup e)
      | Except.ok bcp =>
        if bcp.typ = BackupType.logical then
          Except.error (SliceErr.concurrentOp l)
        else
          canSlicingLoop getBackup rest

/-- canSlicingNow: fetch all live locks, then scan them. -/
def canSlicingNow (locksRes : Except String (List LockHeader))
    (getBackup : String → Except String BackupMeta) : Except SliceErr Unit :=
  match locksRes with
  | Except.error e => Except.error (SliceErr.getLocks e)
  | Except.ok locks => canSlicingLoop getBackup locks

/-- A lock is offending for the gate when it is not a backup lock, or its
backup's type is logical. -/
def lockOffending (getBackup : String → Except String BackupMeta)
    (l : LockHeader) : Bool :=
  if l.typ ≠ Cmd.backup then true
  else
    match getBackup l.opid with
    | Except.ok b => decide (b.typ = BackupType.logical)
    | Except.error _ => false

/-! ### Stale-lock pre-check (pitrLockCheck) -/

/-- Errors of the pre-check, by wrap site. -/
inductive CheckErr where
  | clusterTime (e : String)
  | getLock (e : String)
deriving DecidableEq

/-- Agent.pitrLockCheck: read cluster time T and the current PITR OpLock
of the replica set; no lock means move on; otherwise the lock is stale
exactly when (heartbeat + StaleFrameSec) is strictly below T.  The
StaleFrameSec constant lives in the defs package outside this file's
sources and is passed as a parameter. -/
def pitrLockCheck (staleFrame : Nat) (tsRes : Except String Nat)
    (lockRes : FetchRes Nat) : Except CheckErr Bool :=
  match tsRes with
  | Except.error e => Except.error (CheckErr.clusterTime e)
  | Except.ok ts =>
    match lockRes with
    | FetchRes.fail e => Except.error (CheckErr.getLock e)
    | FetchRes.notFound => Except.ok true
    | FetchRes.ok hb => Except.ok (decide (hb + staleFrame < ts))

/-! ### Nomination driver (nominateRSForPITR) -/

/-- The nominee fragment of the PITR meta for one replica set: the
acknowledging winner (empty string when unset) and the published
candidate list. -/
structure Nominees where
  ack : String
  nodes : List String
deriving DecidableEq

/-- External-call results consumed by one nomination round; fetches and
nominee writes are indexed by the tier position being processed. -/
structure NomEnv where
  setNominationRes : Except String Unit
  fetchNominees : Nat → FetchRes Nominees
  setNomineesRes : Nat → Except String Unit

/-- Errors of the nomination round, by wrap site. -/
inductive NomErr where
  | setNomination (e : String)
  | getNominees (e : String)
  | setNominees (e : String)
deriving DecidableEq

/-- Result of the nomination round. -/
inductive NomResult where
  | ok
  | fail (e : NomErr)
deriving DecidableEq

/-- The tier loop of nominateRSForPITR: for the tier at position i, fetch
the nominees document (not-found is tolerated and leaves no fragment); if
a fetched fragment carries a non-empty ack the round is won and the
function returns; otherwise the tier is published and the driver sleeps
the renomination frame before offering the next tier. -/
def nominateLoop (env : NomEnv) : Nat → List (List String) → List Event × NomResult
  | _, [] => ([], NomResult.ok)
  | i, n :: rest =>
    match env.fetchNominees i with
    | FetchRes.fail e => ([Event.fetchNominees i], NomResult.fail (NomErr.getNominees e))
    | FetchRes.notFound =>
      match env.setNomineesRes i with
      | Except.error e =>
        ([Event.fetchNominees i, Event.setNominees n], NomResult.fail (NomErr.setNominees e))
      | Except.ok _ =>
        (Event.fetchNominees i :: Event.setNominees n ::
          Event.sleepFrame pitrRenominationFrame :: (nominateLoop env (i + 1) rest).1,
         (nominateLoop env (i + 1) rest).2)
    | FetchRes.ok nms =>
      if nms.ack ≠ "" then ([Event.fetchNominees i], NomResult.ok)
      else
        match env.setNomineesRes i with
        | Except.error e =>
          ([Event.fetchNominees i, Event.setNominees n], NomResult.fail (NomErr.setNominees e))
        | Except.ok _ =>
          (Event.fetchNominees i :: Event.setNominees n ::
            Event.sleepFrame pitrRenominationFrame :: (nominateLoop env (i + 1) rest).1,
           (nominateLoop env (i + 1) rest).2)

/-- Agent.nominateRSForPITR: write the empty nomination record for the
round, then run the tier loop. -/
def nominateRSForPITR (env : NomEnv) (tiers : List (List String)) :
    List Event × NomResult :=
  match env.setNominationRes with
  | Except.error e => ([Event.setNomination], NomResult.fail (NomErr.setNomination e))
  | Except.ok _ =>
    (Event.setNomination :: (nominateLoop env 0 tiers).1, (nominateLoop env 0 tiers).2)

/-! ### The control-loop tick (Agent.pitr) -/

/-- Results of the external calls one tick may make, in source order.
The config read is passed to pitrTick separately. -/
structure TickEnv where
  locksRes : Except String (List LockHeader)
  getBackup : String → Except String BackupMeta
  staleFrame : Nat
  clusterTimeRes : Except String Nat
  opLockRes : FetchRes Nat
  nodeInfoRes : Except String NodeInfo
  nodeSuitsRes : Except String Bool
  waitAllRes : Except String Bool
  agentsRes : Except String (List String)
  prioRes : Except String (String → List (List String))
  shardsRes : Except String (List String)
  waitNomRes : Except String Bool
  acquireRes : Except String Bool
  ackRes : Except String Unit
  storageRes : Except String Unit
  catchupRes : Except String Unit
  oplogOnlyCatchupRes : Except String Unit

/-- Errors a tick can return, tagged by the errors.Wrap site in pitr. -/
inductive TickErr where
  | getConf (e : String)
  | canSliceLocks (e : String)
  | canSliceBackup (e : String)
  | checkRun (e : CheckErr)
  | nodeInfoErr (e : String)
  | nodeCheck (e : String)
  | waitOplock (e : String)
  | listAgents (e : String)
  | nodesPrio (e : String)
  | clusterMembers (e : String)
  | waitNomination (e : String)
  | acquireLock (e : String)
  | storage (e : String)
  | catchup (e : String)
deriving DecidableEq

/-- Outcome of one tick. -/
inductive TickResult where
  | ok
  | fail (e : TickErr)
deriving DecidableEq

/-- The tail of the tick once the OpLock has been acquired: the nominee
ack is written with its error discarded (the Go code assigns err and
immediately shadows it), then storage is built, the slicer is constructed
with the configured span, and catchup (or oplog-only catchup) runs.  On
catchup failure the lock is released and the error returned; on success
the streaming goroutine is spawned. -/
def pitrAcquired (env : TickEnv) (cfg : Config) : List Event × TickResult :=
  let _ackErr := env.ackRes
  match env.storageRes with
  | Except.error e => ([Event.setNomineeACK], TickResult.fail (TickErr.storage e))
  | Except.ok _ =>
    match (if cfg.oplogOnly then env.oplogOnlyCatchupRes else env.catchupRes) with
    | Except.error e =>
      ([Event.setNomineeACK, Event.newSlicer cfg.oplogSlicerInterval, Event.release],
       TickResult.fail (TickErr.catchup e))
    | Except.ok _ =>
      ([Event.setNomineeACK, Event.newSlicer cfg.oplogSlicerInterval, Event.spawnStream],
       TickResult.ok)

/-- The nominee phase of the tick: wait for nomination, then try to
acquire the OpLock.  Losing the nomination or the lock ends the tick
without error. -/
def pitrNomineePhase (env : TickEnv) (cfg : Config) : List Event × TickResult :=
  match env.waitNomRes with
  | Except.error e => ([], TickResult.fail (TickErr.waitNomination e))
  | Except.ok false => ([], TickResult.ok)
  | Except.ok true =>
    match env.acquireRes with
    | Except.error e => ([], TickResult.fail (TickErr.acquireLock e))
    | Except.ok false => ([], TickResult.ok)
    | Except.ok true => pitrAcquired env cfg

/-- The election part of the tick, entered when no local slicer handle
exists: lock pre-check, node suitability, optional leader branch (wait
for OpLock release, init meta with its error dropped, list agents,
compute priorities, spawn one nomination goroutine per shard), then the
nominee phase. -/
def pitrElection (env : TickEnv) (cfg : Config) : List Event × TickResult :=
  match pitrLockCheck env.staleFrame env.clusterTimeRes env.opLockRes with
  | Except.error e => ([], TickResult.fail (TickErr.checkRun e))
  | Except.ok false => ([], TickResult.ok)
  | Except.ok true =>
    match env.nodeInfoRes with
    | Except.error e => ([], TickResult.fail (TickErr.nodeInfoErr e))
    | Except.ok ni =>
      match env.nodeSuitsRes with
      | Except.error e => ([], TickResult.fail (TickErr.nodeCheck e))
      | Except.ok false => ([], TickResult.ok)
      | Except.ok true =>
        if ni.isClusterLeader then
          match env.waitAllRes with
          | Except.error e => ([], TickResult.fail (TickErr.waitOplock e))
          | Except.ok false => ([], TickResult.ok)
          | Except.ok true =>
            match env.agentsRes with
            | Except.error e => ([Event.initMeta], TickResult.fail (TickErr.listAgents e))
            | Except.ok _ =>
              match env.prioRes with
              | Except.error e => ([Event.initMeta], TickResult.fail (TickErr.nodesPrio e))
              | Except.ok _ =>
                match env.shardsRes with
                | Except.error e =>
                  ([Event.initMeta], TickResult.fail (TickErr.clusterMembers e))
                | Except.ok shards =>
                  (Event.initMeta :: shards.map Event.spawnNominate ++
                    (pitrNomineePhase env cfg).1,
                   (pitrNomineePhase env cfg).2)
        else pitrNomineePhase env cfg

/-- The already-running branch of the tick: if a local handle exists,
reconcile its span with the configured interval (waking the slicer only
when the interval shrank) and end the tick; otherwise run the election. -/
def pitrGatePassed (st : AgentState) (env : TickEnv) (cfg : Config) :
    AgentState × List Event × TickResult :=
  match st.pitrjob with
  | some p =>
    if p.span = cfg.oplogSlicerInterval then (st, [], TickResult.ok)
    else
      ({ st with pitrjob := some { p with span := cfg.oplogSlicerInterval } },
       Event.setSpan cfg.oplogSlicerInterval ::
         (if cfg.oplogSlicerInterval < p.span then
            sliceNow { st with pitrjob := some { p with span := cfg.oplogSlicerInterval } }
              OPID.nil
          else []),
       TickResult.ok)
  | none => (st, (pitrElection env cfg).1, (pitrElection env cfg).2)

/-- One tick after the configuration has been read: disabled config tears
down the handle; otherwise the oplog-only watchdog runs, then the
concurrency gate (a ConcurrentOpError pauses without error), then the
already-running branch or the election. -/
def pitrWithCfg (st : AgentState) (env : TickEnv) (cfg : Config) :
    AgentState × List Event × TickResult :=
  if cfg.pitrEnabled = false then
    ((removePitr st).1, (removePitr st).2, TickResult.ok)
  else
    let st2 := (stopPitrOnOplogOnlyChange st cfg.oplogOnly).1
    let evs1 := (stopPitrOnOplogOnlyChange st cfg.oplogOnly).2
    match canSlicingNow env.locksRes env.getBackup with
    | Except.error (SliceErr.concurrentOp _) => (st2, evs1, TickResult.ok)
    | Except.error (SliceErr.getLocks e) =>
      (st2, evs1, TickResult.fail (TickErr.canSliceLocks e))
    | Except.error (SliceErr.getBackup e) =>
      (st2, evs1, TickResult.fail (TickErr.canSliceBackup e))
    | Except.ok _ =>
      ((pitrGatePassed st2 env cfg).1,
       evs1 ++ (pitrGatePassed st2 env cfg).2.1,
       (pitrGatePassed st2 env cfg).2.2)

/-- Agent.pitr, one tick: a missing config document is replaced by the
zero config; any other config-read error fails the tick. -/
def pitrTick (st : AgentState) (cfgRes : FetchRes Config) (env : TickEnv) :
    AgentState × List Event × TickResult :=
  match cfgRes with
  | FetchRes.fail e => (st, [], TickResult.fail (TickErr.getConf e))
  | FetchRes.notFound => pitrWithCfg st env emptyConfig
  | FetchRes.ok cfg => pitrWithCfg st env cfg

/-! ### The streaming goroutine -/

/-- The body of the goroutine spawned after a successful catchup
(pitr.go lines 303-345): install the handle, spawn the watcher, run the
stream; on termination log a stream error if any, release the lock
(logging a release failure), and only after the release sleep the
failure penalty of twice the check period when the stream errored. -/
def streamTask (streamErr : Option String) (releaseRes : Except String Unit) :
    List Event :=
  [Event.installHandle, Event.spawnWatcher, Event.streamRun] ++
    (match streamErr with | some _ => [Event.logStreamErr] | none => []) ++
    [Event.release] ++
    (match releaseRes with | Except.error _ => [Event.logReleaseErr] | Except.ok _ => []) ++
    (match streamErr with | some _ => [Event.sleepPenalty (2 * pitrCheckPeriod)] | none => [])

/-! ### Follower-side polling loops -/

/-- Cluster status values stored in the PITR meta (oplog.Status). -/
inductive ClusterStatus where
  | starting
  | ready
  | running
  | errored
deriving DecidableEq

/-- Result of Agent.confirmReadyStatus. -/
inductive ConfirmRes where
  | ok
  | timeout
  | failFetch (e : String)
  | failSetReady (e : String)
deriving DecidableEq

/-- The polling loop of Agent.confirmReadyStatus, over the successive
results of GetClusterStatus; the list length bounds the remaining ticks
before the timeout timer fires.  A not-found status document keeps
polling; a ready status triggers SetReadyRSStatus and ends the wait. -/
def confirmReadyLoop (setReadyRes : Except String Unit) :
    List (FetchRes ClusterStatus) → ConfirmRes
  | [] => ConfirmRes.timeout
  | r :: rest =>
    match r with
    | FetchRes.fail e => ConfirmRes.failFetch e
    | FetchRes.notFound => confirmReadyLoop setReadyRes rest
    | FetchRes.ok status =>
      if status = ClusterStatus.ready then
        match setReadyRes with
        | Except.error e => ConfirmRes.failSetReady e
        | Except.ok _ => ConfirmRes.ok
      else confirmReadyLoop setReadyRes rest

/-- Result of the nomination wait; the Go function returns (false, nil)
both when another node acked and on timeout. -/
inductive WaitNomRes where
  | nominated
  | notNominated
  | failed (e : String)
deriving DecidableEq

/-- The polling loop of Agent.waitNominationForPITR over the successive
results of GetPITRNominees: not-found keeps polling, a non-empty ack
means the round was lost, the node's own name in the published list
means it is nominated. -/
def waitNominationLoop (node : String) :
    List (FetchRes Nominees) → WaitNomRes
  | [] => WaitNomRes.notNominated
  | r :: rest =>
    match r with
    | FetchRes.fail e => WaitNomRes.failed e
    | FetchRes.notFound => waitNominationLoop node rest
    | FetchRes.ok nm =>
      if nm.ack ≠ "" then WaitNomRes.notNominated
      else if node ∈ nm.nodes then WaitNomRes.nominated
      else waitNominationLoop node rest

/-! ### Concrete fixtures used by evaluation witnesses -/

/-- A nomination environment whose first fetch already carries an ack. -/
def nomEnvAck : NomEnv :=
  ⟨Except.ok (), fun _ => FetchRes.ok ⟨"winner", []⟩, fun _ => Except.ok ()⟩

/-- A nomination environment for a fresh round: no nominees document yet
and every write succeeds. -/
def nomEnvFresh : NomEnv :=
  ⟨Except.ok (), fun _ => FetchRes.notFound, fun _ => Except.ok ()⟩

/-- A tick environment where every external call succeeds and the node is
not the cluster leader. -/
def env0 : TickEnv where
  locksRes := Except.ok []
  getBackup := fun _ => Except.ok ⟨BackupType.physical⟩
  staleFrame := 30
  clusterTimeRes := Except.ok 100
  opLockRes := FetchRes.notFound
  nodeInfoRes := Except.ok ⟨"rs0", "node0", false⟩
  nodeSuitsRes := Except.ok true
  waitAllRes := Except.ok true
  agentsRes := Except.ok []
  prioRes := Except.ok (fun _ => [])
  shardsRes := Except.ok []
  waitNomRes := Except.ok true
  acquireRes := Except.ok true
  ackRes := Except.ok ()
  storageRes := Except.ok ()
  catchupRes := Except.ok ()
  oplogOnlyCatchupRes := Except.ok ()

/-- env0 with a failing catchup. -/
def envCatchupFail : TickEnv := { env0 with catchupRes := Except.error "boom" }

/-- An enabled configuration with a 30 second slicing interval. -/
def cfgRun : Config := ⟨true, false, 30⟩

/-! ## Theorems -/

/-- C10: on the first call after agent start (no previous oplog-only
value remembered) the watchdog records the observed value and does not
remove the slicer handle; a call with an unchanged value changes nothing;
only a call whose observed value differs removes the handle (and
remembers the new value). -/
theorem oplog_only_watchdog_spec (st : AgentState) (c : Bool) :
    (st.prevOO = none →
      stopPitrOnOplogOnlyChange st c = ({ st with prevOO := some c }, [])) ∧
    (st.prevOO = some c → stopPitrOnOplogOnlyChange st c = (st, [])) ∧
    (∀ b, st.prevOO = some b → b ≠ c →
      (stopPitrOnOplogOnlyChange st c).1.prevOO = some c ∧
      (stopPitrOnOplogOnlyChange st c).1.pitrjob = none) := by
  obtain ⟨po, pj⟩ := st
  refine ⟨?_, ?_, ?_⟩
  · intro h
    simp only at h
    subst h
    simp [stopPitrOnOplogOnlyChange]
  · intro h
    simp only at h
    subst h
    simp [stopPitrOnOplogOnlyChange]
  · intro b hb hbc
    simp only at hb
    subst hb
    cases pj <;>
      simp [stopPitrOnOplogOnlyChange, removePitr, setPitr, hbc]

/-- Witness for C10: the three branches evaluated at concrete states. -/
theorem oplog_only_watchdog_spec_witness :
    (stopPitrOnOplogOnlyChange ⟨none, some ⟨10⟩⟩ true =
      ({ prevOO := some true, pitrjob := some ⟨10⟩ }, [])) ∧
    (stopPitrOnOplogOnlyChange ⟨some true, some ⟨10⟩⟩ true =
      (⟨some true, some ⟨10⟩⟩, [])) ∧
    ((stopPitrOnOplogOnlyChange ⟨some false, some ⟨10⟩⟩ true).1.prevOO = some true ∧
      (stopPitrOnOplogOnlyChange ⟨some false, some ⟨10⟩⟩ true).1.pitrjob = none) :=
  ⟨(oplog_only_watchdog_spec ⟨none, some ⟨10⟩⟩ true).1 rfl,
   (oplog_only_watchdog_spec ⟨some true, some ⟨10⟩⟩ true).2.1 rfl,
   (oplog_only_watchdog_spec ⟨some false, some ⟨10⟩⟩ true).2.2 false rfl
     (by decide)⟩

/-- C3: with a cluster time T, the pre-check moves on exactly when no
lock document exists or heartbeat + staleFrame is strictly below T; at
the boundary heartbeat + staleFrame = T the lock is not stale, and for a
strictly greater cluster time it is. -/
theorem pitrLockCheck_stale_boundary (sf ts : Nat) (lockRes : FetchRes Nat)
    (hNoErr : ∀ e, lockRes ≠ FetchRes.fail e) :
    (pitrLockCheck sf (Except.ok ts) lockRes = Except.ok true ↔
      lockRes = FetchRes.notFound ∨ ∃ hb, lockRes = FetchRes.ok hb ∧ hb + sf < ts) ∧
    (∀ hb, lockRes = FetchRes.ok hb → hb + sf = ts →
      pitrLockCheck sf (Except.ok ts) lockRes = Except.ok false) ∧
    (∀ hb, lockRes = FetchRes.ok hb → hb + sf < ts →
      pitrLockCheck sf (Except.ok ts) lockRes = Except.ok true) := by
  cases lockRes with
  | fail e => exact absurd rfl (hNoErr e)
  | notFound => simp [pitrLockCheck]
  | ok hb =>
    refine ⟨?_, ?_, ?_⟩
    · simp [pitrLockCheck]
    · intro hb2 heq hts
      obtain rfl : hb = hb2 := by injection heq
      simp [pitrLockCheck]
      omega
    · intro hb2 heq hts
      obtain rfl : hb = hb2 := by injection heq
      simp [pitrLockCheck]
      omega

/-- Witness for C3 at staleFrame 30, heartbeat 100, cluster time 131. -/
theorem pitrLockCheck_stale_boundary_witness :
    (pitrLockCheck 30 (Except.ok 131) (FetchRes.ok 100) = Except.ok true ↔
      FetchRes.ok 100 = FetchRes.notFound ∨
        ∃ hb, FetchRes.ok (100 : Nat) = FetchRes.ok hb ∧ hb + 30 < 131) ∧
    (∀ hb, FetchRes.ok (100 : Nat) = FetchRes.ok hb → hb + 30 = 131 →
      pitrLockCheck 30 (Except.ok 131) (FetchRes.ok 100) = Except.ok false) ∧
    (∀ hb, FetchRes.ok (100 : Nat) = FetchRes.ok hb → hb + 30 < 131 →
      pitrLockCheck 30 (Except.ok 131) (FetchRes.ok 100) = Except.ok true) :=
  pitrLockCheck_stale_boundary 30 131 (FetchRes.ok 100)
    (fun _ h => FetchRes.noConfusion h)

/-- C7: a not-found result on an optional document is never surfaced as
an error: the tick with a missing config document behaves exactly as
with the zero config, the nominee waiter keeps polling past a missing
nominees document, and the ready-status poll keeps polling past a
missing cluster-status document. -/
theorem notFound_treated_as_empty :
    (∀ (st : AgentState) (env : TickEnv),
      pitrTick st FetchRes.notFound env = pitrTick st (FetchRes.ok emptyConfig) env) ∧
    (∀ (node : String) (rest : List (FetchRes Nominees)),
      waitNominationLoop node (FetchRes.notFound :: rest) = waitNominationLoop node rest) ∧
    (∀ (s : Except String Unit) (rest : List (FetchRes ClusterStatus)),
      confirmReadyLoop s (FetchRes.notFound :: rest) = confirmReadyLoop s rest) :=
  ⟨fun _ _ => rfl, fun _ _ => rfl, fun _ _ => rfl⟩

/-- C6: in the streaming task's teardown, the failure-penalty sleep of
twice the check period occurs exactly when the stream terminated with an
error, and every occurrence of the sleep is preceded by the lock
release. -/
theorem stream_release_precedes_penalty (se : Option String) (rr : Except String Unit) :
    (Event.sleepPenalty (2 * pitrCheckPeriod) ∈ streamTask se rr ↔ se ≠ none) ∧
    (∀ i : Nat, (streamTask se rr)[i]? = some (Event.sleepPenalty (2 * pitrCheckPeriod)) →
      ∃ j : Nat, j < i ∧ (streamTask se rr)[j]? = some Event.release) := by
  constructor
  · cases se <;> cases rr <;> simp [streamTask]
  · intro i hi
    cases se with
    | none =>
      cases rr <;>
        · rcases i with _ | _ | _ | _ | _ | i <;> simp [streamTask] at hi
    | some _ =>
      cases rr with
      | error re =>
        rcases i with _ | _ | _ | _ | _ | _ | _ | i <;> simp [streamTask] at hi
        exact ⟨4, by omega, rfl⟩
      | ok u =>
        rcases i with _ | _ | _ | _ | _ | _ | i <;> simp [streamTask] at hi
        exact ⟨4, by omega, rfl⟩

/-- Witness for C6: an errored stream both sleeps the penalty and has the
release strictly before it. -/
theorem stream_release_precedes_penalty_witness :
    Event.sleepPenalty (2 * pitrCheckPeriod) ∈ streamTask (some "se") (Except.ok ()) ∧
    ∃ j : Nat, j < 5 ∧ (streamTask (some "se") (Except.ok ()))[j]? = some Event.release :=
  ⟨(stream_release_precedes_penalty (some "se") (Except.ok ())).1.mpr
     (fun h => Option.noConfusion h),
   (stream_release_precedes_penalty (some "se") (Except.ok ())).2 5 rfl⟩

/-- Once the fetch at tier position k returns a fragment with a non-empty
ack, the tier loop emits nothing after that fetch (so no further nominee
write for the current or any later tier) and returns cleanly. -/
lemma nominateLoop_halts_once_acked (env : NomEnv) (k : Nat) (nms : Nominees)
    (hk : env.fetchNominees k = FetchRes.ok nms) (hack : nms.ack ≠ "") :
    ∀ (tiers : List (List String)) (i : Nat) (l₁ l₂ : List Event),
      (nominateLoop env i tiers).1 = l₁ ++ Event.fetchNominees k :: l₂ →
      l₂ = [] ∧ (nominateLoop env i tiers).2 = NomResult.ok := by
  intro tiers
  induction tiers with
  | nil =>
    intro i l₁ l₂ h
    simp [nominateLoop] at h
  | cons n rest ih =>
    intro i l₁ l₂ h
    by_cases hik : i = k
    · subst hik
      simp only [nominateLoop, hk] at h ⊢
      rw [if_pos hack] at h ⊢
      rcases l₁ with _ | ⟨a, l₁⟩ <;> simp at h
      exact ⟨h, rfl⟩
    · cases hf : env.fetchNominees i with
      | fail e =>
        simp only [nominateLoop, hf] at h
        rcases l₁ with _ | ⟨a, l₁⟩ <;> simp at h
        exact absurd h.1 hik
      | notFound =>
        cases hs : env.setNomineesRes i with
        | error e =>
          simp only [nominateLoop, hf, hs] at h
          rcases l₁ with _ | ⟨a, l₁⟩
          · simp at h
            exact absurd h.1 hik
          · rcases l₁ with _ | ⟨b, l₁⟩ <;> simp at h
        | ok u =>
          simp only [nominateLoop, hf, hs] at h ⊢
          rcases l₁ with _ | ⟨a, l₁⟩
          · simp at h
            exact absurd h.1 hik
          · rcases l₁ with _ | ⟨b, l₁⟩
            · simp at h
            · rcases l₁ with _ | ⟨c, l₁⟩
              · simp at h
              · simp at h
                exact ih (i + 1) l₁ l₂ h.2.2.2
      | ok nms2 =>
        by_cases hA : nms2.ack ≠ ""
        · simp only [nominateLoop, hf] at h
          rw [if_pos hA] at h
          rcases l₁ with _ | ⟨a, l₁⟩ <;> simp at h
          exact absurd h.1 hik
        · cases hs : env.setNomineesRes i with
          | error e =>
            simp only [nominateLoop, hf] at h
            rw [if_neg hA] at h
            simp only [hs] at h
            rcases l₁ with _ | ⟨a, l₁⟩
            · simp at h
              exact absurd h.1 hik
            · rcases l₁ with _ | ⟨b, l₁⟩ <;> simp at h
          | ok u =>
            simp only [nominateLoop, hf] at h ⊢
            rw [if_neg hA] at h ⊢
            simp only [hs] at h ⊢
            rcases l₁ with _ | ⟨a, l₁⟩
            · simp at h
              exact absurd h.1 hik
            · rcases l₁ with _ | ⟨b, l₁⟩
              · simp at h
              · rcases l₁ with _ | ⟨c, l₁⟩
                · simp at h
                · simp at h
                  exact ih (i + 1) l₁ l₂ h.2.2.2

/-- C1: in a nomination round, once a fetched nominees fragment carries a
non-empty ack, the round emits nothing after that fetch: no nominee list
is published for the current or any later tier, and the round returns
cleanly. -/
theorem nomination_halts_once_acked (env : NomEnv) (tiers : List (List String))
    (l₁ l₂ : List Event) (k : Nat) (nms : Nominees)
    (hevs : (nominateRSForPITR env tiers).1 = l₁ ++ Event.fetchNominees k :: l₂)
    (hk : env.fetchNominees k = FetchRes.ok nms)
    (hack : nms.ack ≠ "") :
    l₂ = [] ∧ (nominateRSForPITR env tiers).2 = NomResult.ok := by
  cases hsn : env.setNominationRes with
  | error e =>
    simp only [nominateRSForPITR, hsn] at hevs
    rcases l₁ with _ | ⟨a, l₁⟩ <;> simp at hevs
  | ok u =>
    simp only [nominateRSForPITR, hsn] at hevs ⊢
    rcases l₁ with _ | ⟨a, l₁⟩
    · simp at hevs
    · simp at hevs
      exact nominateLoop_halts_once_acked env k nms hk hack tiers 0 l₁ l₂ hevs.2

/-- Witness for C1: a round whose very first fetch sees an ack stops with
only the nomination record and that fetch in its trace. -/
theorem nomination_halts_once_acked_witness :
    ([] : List Event) = [] ∧
    (nominateRSForPITR nomEnvAck [["a"], ["b"]]).2 = NomResult.ok :=
  nomination_halts_once_acked nomEnvAck [["a"], ["b"]] [Event.setNomination] [] 0
    ⟨"winner", []⟩ rfl rfl (by decide)

/-- C8 counterexample: on a fresh round with tiers [[], [n1]], the driver
publishes the empty tier and sleeps the renomination frame before
fetching for the next tier, instead of skipping the empty tier. -/
theorem empty_tier_skip_counterexample :
    (nominateRSForPITR nomEnvFresh [[], ["n1"]]).1[2]? = some (Event.setNominees []) ∧
    (nominateRSForPITR nomEnvFresh [[], ["n1"]]).1[3]? =
      some (Event.sleepFrame pitrRenominationFrame) ∧
    (nominateRSForPITR nomEnvFresh [[], ["n1"]]).1[4]? =
      some (Event.fetchNominees 1) :=
  ⟨rfl, rfl, rfl⟩

/-- C8 amended: an empty tier is processed like any other tier — the
driver still fetches the nominees, publishes the empty candidate list,
and sleeps the renomination frame before offering the next tier. -/
theorem empty_tier_published_and_slept (env : NomEnv) (i : Nat)
    (rest : List (List String))
    (hf : env.fetchNominees i = FetchRes.notFound)
    (hs : env.setNomineesRes i = Except.ok ()) :
    nominateLoop env i ([] :: rest) =
      (Event.fetchNominees i :: Event.setNominees [] ::
         Event.sleepFrame pitrRenominationFrame :: (nominateLoop env (i + 1) rest).1,
       (nominateLoop env (i + 1) rest).2) := by
  simp [nominateLoop, hf, hs]

/-- Witness for C8's amended statement on a fresh one-tier round. -/
theorem empty_tier_published_and_slept_witness :
    nominateLoop nomEnvFresh 0 [[]] =
      (Event.fetchNominees 0 :: Event.setNominees [] ::
         Event.sleepFrame pitrRenominationFrame :: (nominateLoop nomEnvFresh 1 []).1,
       (nominateLoop nomEnvFresh 1 []).2) :=
  empty_tier_published_and_slept nomEnvFresh 0 [] rfl rfl

/-- When the gate's scan stops with a ConcurrentOpError, the carried
header belongs to the scanned list and is offending. -/
lemma canSlicingLoop_concurrent (f : String → Except String BackupMeta) :
    ∀ (locks : List LockHeader) (h : LockHeader),
      canSlicingLoop f locks = Except.error (SliceErr.concurrentOp h) →
      h ∈ locks ∧ lockOffending f h = true := by
  intro locks
  induction locks with
  | nil =>
    intro h hh
    simp [canSlicingLoop] at hh
  | cons l rest ih =>
    intro h hh
    by_cases ht : l.typ = Cmd.backup
    · cases hfo : f l.opid with
      | error e =>
        simp [canSlicingLoop, ht, hfo] at hh
      | ok bcp =>
        by_cases hb : bcp.typ = BackupType.logical
        · simp [canSlicingLoop, ht, hfo, hb] at hh
          subst hh
          simp [lockOffending, ht, hfo, hb]
        · simp only [canSlicingLoop, ht, hfo] at hh
          rw [if_neg (by simp [ht])] at hh
          simp only [hb, if_false, ite_false] at hh
          obtain ⟨hm, ho⟩ := ih h (by simpa [hb] using hh)
          exact ⟨List.mem_cons_of_mem l hm, ho⟩
    · simp [canSlicingLoop, ht] at hh
      subst hh
      simp [lockOffending, ht]

/-- Under successful backup lookups the scan never fails with a
get-backup error. -/
lemma canSlicingLoop_no_backup_err (f : String → Except String BackupMeta) :
    ∀ locks : List LockHeader,
      (∀ l ∈ locks, l.typ = Cmd.backup → ∃ b, f l.opid = Except.ok b) →
      ∀ e, canSlicingLoop f locks ≠ Except.error (SliceErr.getBackup e) := by
  intro locks
  induction locks with
  | nil =>
    intro _ e
    simp [canSlicingLoop]
  | cons l rest ih =>
    intro hB e
    by_cases ht : l.typ = Cmd.backup
    · obtain ⟨b, hb⟩ := hB l (List.mem_cons_self l rest) ht
      by_cases hlog : b.typ = BackupType.logical
      · simp [canSlicingLoop, ht, hb, hlog]
      · simp only [canSlicingLoop, ht, hb]
        rw [if_neg (by simp [ht])]
        simp only [hlog, ite_false]
        exact ih (fun x hx => hB x (List.mem_cons_of_mem l hx)) e
    · simp [canSlicingLoop, ht]

/-- The scan never fails with a get-locks error (that wrap site belongs
to the lock fetch, not the scan). -/
lemma canSlicingLoop_no_locks_err (f : String → Except String BackupMeta) :
    ∀ (locks : List LockHeader) (e : String),
      canSlicingLoop f locks ≠ Except.error (SliceErr.getLocks e) := by
  intro locks
  induction locks with
  | nil =>
    intro e
    simp [canSlicingLoop]
  | cons l rest ih =>
    intro e
    by_cases ht : l.typ = Cmd.backup
    · cases hfo : f l.opid with
      | error e2 => simp [canSlicingLoop, ht, hfo]
      | ok b =>
        by_cases hlog : b.typ = BackupType.logical
        · simp [canSlicingLoop, ht, hfo, hlog]
        · simp only [canSlicingLoop, ht, hfo]
          rw [if_neg (by simp [ht])]
          simp only [hlog, ite_false]
          exact ih e
    · simp [canSlicingLoop, ht]

/-- The scan succeeds exactly when no lock is offending, provided backup
lookups succeed on backup locks. -/
lemma canSlicingLoop_ok_iff (f : String → Except String BackupMeta) :
    ∀ locks : List LockHeader,
      (∀ l ∈ locks, l.typ = Cmd.backup → ∃ b, f l.opid = Except.ok b) →
      (canSlicingLoop f locks = Except.ok () ↔
        ∀ l ∈ locks, lockOffending f l = false) := by
  intro locks
  induction locks with
  | nil =>
    intro _
    simp [canSlicingLoop]
  | cons l rest ih =>
    intro hB
    by_cases ht : l.typ = Cmd.backup
    · obtain ⟨b, hb⟩ := hB l (List.mem_cons_self l rest) ht
      by_cases hlog : b.typ = BackupType.logical
      · simp [canSlicingLoop, ht, hb, hlog, lockOffending]
      · have hrest := ih (fun x hx => hB x (List.mem_cons_of_mem l hx))
        simp only [canSlicingLoop, ht, hb]
        rw [if_neg (by simp [ht])]
        simp only [hlog, ite_false]
        rw [hrest]
        constructor
        · intro hall x hx
          rcases List.mem_cons.mp hx with rfl | hx2
          · simp [lockOffending, ht, hb, hlog]
          · exact hall x hx2
        · intro hall x hx
          exact hall x (List.mem_cons_of_mem l hx)
    · constructor
      · intro hh
        simp [canSlicingLoop, ht] at hh
      · intro hall
        have := hall l (List.mem_cons_self l rest)
        simp [lockOffending, ht] at this

/-- C2: with live locks fetched successfully and backup lookups
succeeding, the gate permits slicing exactly when every live lock is a
backup lock of a non-logical backup; otherwise it returns a
ConcurrentOpError carrying the header of an offending lock. -/
theorem canSlicingNow_gate (locks : List LockHeader)
    (f : String → Except String BackupMeta)
    (hB : ∀ l ∈ locks, l.typ = Cmd.backup → ∃ b, f l.opid = Except.ok b) :
    (canSlicingNow (Except.ok locks) f = Except.ok () ↔
      ∀ l ∈ locks, lockOffending f l = false) ∧
    (∀ h, canSlicingNow (Except.ok locks) f = Except.error (SliceErr.concurrentOp h) →
      h ∈ locks ∧ lockOffending f h = true) ∧
    ((∃ l ∈ locks, lockOffending f l = true) →
      ∃ h, h ∈ locks ∧ lockOffending f h = true ∧
        canSlicingNow (Except.ok locks) f = Except.error (SliceErr.concurrentOp h)) := by
  have hnow : canSlicingNow (Except.ok locks) f = canSlicingLoop f locks := rfl
  refine ⟨?_, ?_, ?_⟩
  · rw [hnow]
    exact canSlicingLoop_ok_iff f locks hB
  · intro h hh
    rw [hnow] at hh
    exact canSlicingLoop_concurrent f locks h hh
  · rintro ⟨l, hl, hoff⟩
    cases hres : canSlicingLoop f locks with
    | ok u =>
      have hall := (canSlicingLoop_ok_iff f locks hB).mp (by cases u; exact hres)
      rw [hall l hl] at hoff
      exact absurd hoff (by simp)
    | error se =>
      cases se with
      | concurrentOp h =>
        obtain ⟨hm, ho⟩ := canSlicingLoop_concurrent f locks h hres
        exact ⟨h, hm, ho, by rw [hnow]; exact hres⟩
      | getLocks e => exact absurd hres (canSlicingLoop_no_locks_err f locks e)
      | getBackup e => exact absurd hres (canSlicingLoop_no_backup_err f locks hB e)

/-- Witness for C2: one physical-backup lock permits slicing; adding a
restore lock makes the gate return that lock's header. -/
theorem canSlicingNow_gate_witness :
    (canSlicingNow (Except.ok [LockHeader.mk Cmd.backup "rs0" "a" "op1"])
        (fun _ => Except.ok ⟨BackupType.physical⟩) = Except.ok () ↔
      ∀ l ∈ [LockHeader.mk Cmd.backup "rs0" "a" "op1"],
        lockOffending (fun _ => Except.ok ⟨BackupType.physical⟩) l = false) ∧
    (∀ h, canSlicingNow (Except.ok [LockHeader.mk Cmd.backup "rs0" "a" "op1"])
        (fun _ => Except.ok ⟨BackupType.physical⟩) =
          Except.error (SliceErr.concurrentOp h) →
      h ∈ [LockHeader.mk Cmd.backup "rs0" "a" "op1"] ∧
        lockOffending (fun _ => Except.ok ⟨BackupType.physical⟩) h = true) ∧
    ((∃ l ∈ [LockHeader.mk Cmd.backup "rs0" "a" "op1"],
        lockOffending (fun _ => Except.ok ⟨BackupType.physical⟩) l = true) →
      ∃ h, h ∈ [LockHeader.mk Cmd.backup "rs0" "a" "op1"] ∧
        lockOffending (fun _ => Except.ok ⟨BackupType.physical⟩) h = true ∧
        canSlicingNow (Except.ok [LockHeader.mk Cmd.backup "rs0" "a" "op1"])
          (fun _ => Except.ok ⟨BackupType.physical⟩) =
            Except.error (SliceErr.concurrentOp h)) :=
  canSlicingNow_gate [LockHeader.mk Cmd.backup "rs0" "a" "op1"]
    (fun _ => Except.ok ⟨BackupType.physical⟩)
    (fun _ _ _ => ⟨⟨BackupType.physical⟩, rfl⟩)

/-- The oplog-only watchdog leaves the slicer slot alone (and just
refreshes prevOO) when the slot is already empty, when no previous value
is remembered, or when the value is unchanged. -/
lemma stopPitr_keep (st : AgentState) (c : Bool)
    (h : st.pitrjob = none ∨ st.prevOO = none ∨ st.prevOO = some c) :
    stopPitrOnOplogOnlyChange st c = ({ st with prevOO := some c }, []) := by
  obtain ⟨po, pj⟩ := st
  simp only at h
  rcases h with h | h | h
  · subst h
    cases po with
    | none => simp [stopPitrOnOplogOnlyChange]
    | some b =>
      by_cases hb : b = c
      · subst hb
        simp [stopPitrOnOplogOnlyChange]
      · simp [stopPitrOnOplogOnlyChange, hb, removePitr, setPitr]
  · subst h
    simp [stopPitrOnOplogOnlyChange]
  · subst h
    simp [stopPitrOnOplogOnlyChange]

/-- Once the pre-checks, nomination and lock acquisition all succeed, the
election phase is the leader prefix followed by the acquired tail. -/
lemma pitrElection_reaches (env : TickEnv) (cfg : Config) (ni : NodeInfo)
    (ags : List String) (pr : String → List (List String)) (shards : List String)
    (h5 : pitrLockCheck env.staleFrame env.clusterTimeRes env.opLockRes = Except.ok true)
    (h6 : env.nodeInfoRes = Except.ok ni)
    (h7 : env.nodeSuitsRes = Except.ok true)
    (h8 : ni.isClusterLeader = true →
      env.waitAllRes = Except.ok true ∧ env.agentsRes = Except.ok ags ∧
        env.prioRes = Except.ok pr ∧ env.shardsRes = Except.ok shards)
    (h9 : env.waitNomRes = Except.ok true)
    (h10 : env.acquireRes = Except.ok true) :
    pitrElection env cfg =
      ((if ni.isClusterLeader then Event.initMeta :: shards.map Event.spawnNominate
        else []) ++ (pitrAcquired env cfg).1,
       (pitrAcquired env cfg).2) := by
  cases hL : ni.isClusterLeader with
  | false =>
    simp [pitrElection, pitrNomineePhase, h5, h6, h7, h9, h10, hL]
  | true =>
    obtain ⟨hw, ha, hp, hs⟩ := h8 hL
    simp [pitrElection, pitrNomineePhase, h5, h6, h7, h9, h10, hL, hw, ha, hp, hs]

/-- Under the same conditions plus an enabled config, an untouched slot
and a passing gate, the whole tick is prevOO refresh plus the election
phase. -/
lemma pitrTick_reaches (st : AgentState) (env : TickEnv) (cfg : Config)
    (h1 : st.pitrjob = none) (hEn : cfg.pitrEnabled = true)
    (hGate : canSlicingNow env.locksRes env.getBackup = Except.ok ()) :
    pitrTick st (FetchRes.ok cfg) env =
      ({ st with prevOO := some cfg.oplogOnly }, pitrElection env cfg) := by
  have hstop := stopPitr_keep st cfg.oplogOnly (Or.inl h1)
  simp [pitrTick, pitrWithCfg, hEn, hstop, hGate, pitrGatePassed, h1]

/-- The acquired tail always records the nominee-ack write as its first
event. -/
lemma pitrAcquired_has_ack (env : TickEnv) (cfg : Config) :
    Event.setNomineeACK ∈ (pitrAcquired env cfg).1 := by
  cases hst : env.storageRes with
  | error e => simp [pitrAcquired, hst]
  | ok u =>
    cases hc : (if cfg.oplogOnly then env.oplogOnlyCatchupRes else env.catchupRes) with
    | error e => simp [pitrAcquired, hst, hc]
    | ok v => simp [pitrAcquired, hst, hc]

/-- The tick's outcome does not depend on the result of the nominee-ack
write. -/
lemma pitrTick_ackRes_irrel (st : AgentState) (cfgRes : FetchRes Config)
    (env : TickEnv) (r : Except String Unit) :
    pitrTick st cfgRes { env with ackRes := r } = pitrTick st cfgRes env := by
  obtain ⟨a1, a2, a3, a4, a5, a6, a7, a8, a9, a10, a11, a12, a13, a14, a15, a16, a17⟩ := env
  rfl

/-- C4: when a local slicer handle exists and the configured interval
differs from the running span, the tick pushes the new span, wakes the
slicer with the nil op id exactly when the interval shrank, and returns
without running the election. -/
theorem tick_reconciles_running_slicer (st : AgentState) (env : TickEnv)
    (cfg : Config) (p : Handle)
    (hjob : st.pitrjob = some p)
    (hOO : st.prevOO = none ∨ st.prevOO = some cfg.oplogOnly)
    (hEn : cfg.pitrEnabled = true)
    (hGate : canSlicingNow env.locksRes env.getBackup = Except.ok ())
    (hDiff : p.span ≠ cfg.oplogSlicerInterval) :
    pitrTick st (FetchRes.ok cfg) env =
      ({ st with prevOO := some cfg.oplogOnly,
                 pitrjob := some { span := cfg.oplogSlicerInterval } },
       Event.setSpan cfg.oplogSlicerInterval ::
         (if cfg.oplogSlicerInterval < p.span then [Event.wake OPID.nil] else []),
       TickResult.ok) ∧
    Event.spawnStream ∉ (pitrTick st (FetchRes.ok cfg) env).2.1 ∧
    (∀ rs, Event.spawnNominate rs ∉ (pitrTick st (FetchRes.ok cfg) env).2.1) := by
  have hstop := stopPitr_keep st cfg.oplogOnly (Or.inr hOO)
  have hmain : pitrTick st (FetchRes.ok cfg) env =
      ({ st with prevOO := some cfg.oplogOnly,
                 pitrjob := some { span := cfg.oplogSlicerInterval } },
       Event.setSpan cfg.oplogSlicerInterval ::
         (if cfg.oplogSlicerInterval < p.span then [Event.wake OPID.nil] else []),
       TickResult.ok) := by
    simp [pitrTick, pitrWithCfg, hEn, hstop, hGate, pitrGatePassed, hjob, hDiff,
      sliceNow]
  refine ⟨hmain, ?_, ?_⟩
  · rw [hmain]
    by_cases hlt : cfg.oplogSlicerInterval < p.span <;> simp [hlt]
  · intro rs
    rw [hmain]
    by_cases hlt : cfg.oplogSlicerInterval < p.span <;> simp [hlt]

/-- Witness for C4: a running slicer with span 60 and configured interval
30 gets the span pushed and the wake signal. -/
theorem tick_reconciles_running_slicer_witness :
    pitrTick ⟨some false, some ⟨60⟩⟩ (FetchRes.ok cfgRun) env0 =
      (⟨some false, some ⟨30⟩⟩,
       Event.setSpan 30 :: (if (30 : Nat) < 60 then [Event.wake OPID.nil] else []),
       TickResult.ok) ∧
    Event.spawnStream ∉
      (pitrTick ⟨some false, some ⟨60⟩⟩ (FetchRes.ok cfgRun) env0).2.1 ∧
    (∀ rs, Event.spawnNominate rs ∉
      (pitrTick ⟨some false, some ⟨60⟩⟩ (FetchRes.ok cfgRun) env0).2.1) :=
  tick_reconciles_running_slicer ⟨some false, some ⟨60⟩⟩ env0 cfgRun ⟨60⟩ rfl
    (Or.inr rfl) rfl rfl (by decide)

/-- C5: if catchup (or oplog-only catchup) fails after the OpLock was
acquired, the tick releases the lock, returns the catchup error, spawns
no streaming task, and installs no slicer handle. -/
theorem tick_catchup_failure_releases_lock (st : AgentState) (env : TickEnv)
    (cfg : Config) (ni : NodeInfo) (ags : List String)
    (pr : String → List (List String)) (shards : List String) (e : String)
    (h1 : st.pitrjob = none) (hEn : cfg.pitrEnabled = true)
    (hGate : canSlicingNow env.locksRes env.getBackup = Except.ok ())
    (h5 : pitrLockCheck env.staleFrame env.clusterTimeRes env.opLockRes = Except.ok true)
    (h6 : env.nodeInfoRes = Except.ok ni)
    (h7 : env.nodeSuitsRes = Except.ok true)
    (h8 : ni.isClusterLeader = true →
      env.waitAllRes = Except.ok true ∧ env.agentsRes = Except.ok ags ∧
        env.prioRes = Except.ok pr ∧ env.shardsRes = Except.ok shards)
    (h9 : env.waitNomRes = Except.ok true)
    (h10 : env.acquireRes = Except.ok true)
    (h11 : env.storageRes = Except.ok ())
    (h12 : (if cfg.oplogOnly then env.oplogOnlyCatchupRes else env.catchupRes) =
      Except.error e) :
    (pitrTick st (FetchRes.ok cfg) env).2.2 = TickResult.fail (TickErr.catchup e) ∧
    Event.release ∈ (pitrTick st (FetchRes.ok cfg) env).2.1 ∧
    Event.spawnStream ∉ (pitrTick st (FetchRes.ok cfg) env).2.1 ∧
    (pitrTick st (FetchRes.ok cfg) env).1.pitrjob = none := by
  have hacq : pitrAcquired env cfg =
      ([Event.setNomineeACK, Event.newSlicer cfg.oplogSlicerInterval, Event.release],
       TickResult.fail (TickErr.catchup e)) := by
    simp [pitrAcquired, h11, h12]
  have hmain := pitrTick_reaches st env cfg h1 hEn hGate
  rw [pitrElection_reaches env cfg ni ags pr shards h5 h6 h7 h8 h9 h10, hacq] at hmain
  rw [hmain]
  refine ⟨rfl, ?_, ?_, ?_⟩
  · simp
  · cases hL : ni.isClusterLeader <;> simp [hL]
  · exact h1

/-- Witness for C5: a failing catchup on a non-leader node with the lock
acquired. -/
theorem tick_catchup_failure_releases_lock_witness :
    (pitrTick ⟨some false, none⟩ (FetchRes.ok cfgRun) envCatchupFail).2.2 =
      TickResult.fail (TickErr.catchup "boom") ∧
    Event.release ∈ (pitrTick ⟨some false, none⟩ (FetchRes.ok cfgRun) envCatchupFail).2.1 ∧
    Event.spawnStream ∉
      (pitrTick ⟨some false, none⟩ (FetchRes.ok cfgRun) envCatchupFail).2.1 ∧
    (pitrTick ⟨some false, none⟩ (FetchRes.ok cfgRun) envCatchupFail).1.pitrjob = none :=
  tick_catchup_failure_releases_lock ⟨some false, none⟩ envCatchupFail cfgRun
    ⟨"rs0", "node0", false⟩ [] (fun _ => []) [] "boom" rfl rfl rfl rfl rfl rfl
    (fun h => Bool.noConfusion h) rfl rfl rfl rfl

/-- C9: the nominee-ack write's result is discarded — the tick's outcome
is identical whatever that write returns — while the write itself is
still issued once the lock is acquired. -/
theorem ack_write_error_discarded (st : AgentState) (env : TickEnv)
    (cfg : Config) (ni : NodeInfo) (ags : List String)
    (pr : String → List (List String)) (shards : List String)
    (h1 : st.pitrjob = none) (hEn : cfg.pitrEnabled = true)
    (hGate : canSlicingNow env.locksRes env.getBackup = Except.ok ())
    (h5 : pitrLockCheck env.staleFrame env.clusterTimeRes env.opLockRes = Except.ok true)
    (h6 : env.nodeInfoRes = Except.ok ni)
    (h7 : env.nodeSuitsRes = Except.ok true)
    (h8 : ni.isClusterLeader = true →
      env.waitAllRes = Except.ok true ∧ env.agentsRes = Except.ok ags ∧
        env.prioRes = Except.ok pr ∧ env.shardsRes = Except.ok shards)
    (h9 : env.waitNomRes = Except.ok true)
    (h10 : env.acquireRes = Except.ok true) :
    (∀ r, pitrTick st (FetchRes.ok cfg) { env with ackRes := r } =
      pitrTick st (FetchRes.ok cfg) env) ∧
    Event.setNomineeACK ∈ (pitrTick st (FetchRes.ok cfg) env).2.1 := by
  refine ⟨fun r => pitrTick_ackRes_irrel st (FetchRes.ok cfg) env r, ?_⟩
  rw [pitrTick_reaches st env cfg h1 hEn hGate,
    pitrElection_reaches env cfg ni ags pr shards h5 h6 h7 h8 h9 h10]
  exact List.mem_append.mpr (Or.inr (pitrAcquired_has_ack env cfg))

/-- Witness for C9 on a non-leader tick with every call succeeding. -/
theorem ack_write_error_discarded_witness :
    (∀ r, pitrTick ⟨some false, none⟩ (FetchRes.ok cfgRun) { env0 with ackRes := r } =
      pitrTick ⟨some false, none⟩ (FetchRes.ok cfgRun) env0) ∧
    Event.setNomineeACK ∈
      (pitrTick ⟨some false, none⟩ (FetchRes.ok cfgRun) env0).2.1 :=
  ack_write_error_discarded ⟨some false, none⟩ env0 cfgRun ⟨"rs0", "node0", false⟩
    [] (fun _ => []) [] rfl rfl rfl rfl rfl rfl (fun h => Bool.noConfusion h) rfl rfl

end PbmPitr
